import Mathlib

/-!
Shallow embedding of the orchestration core of the career-analysis pipeline:
the workflow class `CareerAnalysisWorkflow` and the module-level helper
`broadcast_workflow_progress` from `backend/app/workflows/analysis_workflow.py`,
the event classes from `backend/app/workflows/events.py`, and the adapter
wrapper `BaseAgent.process` from `backend/app/agents/base_agent.py`.

Modelling conventions:
* Python dict payloads (`result.data`) are modelled by `AgentData`, recording
  exactly the projections the workflow reads (`missing_skills`, `job_title`).
* `ctx.store` is modelled by the `Store` structure, one field per key the
  workflow uses; Python dicts stored under a key become association lists with
  Python's assignment semantics (update in place, else append).
* Each `@step` handler becomes a pure function from the store and its input
  event to the updated store plus the list of events it produces, in creation
  order.  In the source a handler returns its first created event and pushes
  the rest through `ctx.send_event`; both are enqueued by the engine, so the
  emission of an invocation is exactly that ordered list.
* The opaque agent call `await agent.process(...)` is modelled by passing the
  outcome of the agent's internal `_execute` as an explicit `ExecOutcome`
  argument and applying `process` (the `BaseAgent.process` wrapper) to it.
-/

set_option linter.unusedVariables false

namespace Workflow

/-- One item of a `missing_skills` list.  `match_skills` reads it as
`skill.get("skill_name", "") if isinstance(skill, dict) else str(skill)`,
so an item is either a dict with an optional `skill_name` field or an
arbitrary non-dict value, of which only the `str()` rendering matters. -/
inductive SkillEntry where
  | dict (skillName : Option String)
  | other (rendered : String)
deriving DecidableEq, Repr

/-- The `str()` / `.get("skill_name", "")` projection used in `match_skills`. -/
def skillEntryName : SkillEntry → String
  | SkillEntry.dict n => n.getD ""
  | SkillEntry.other s => s

/-- An agent result payload (`result.data`, a Python dict).  The workflow
engine reads exactly two pieces of such a payload:
`data.get("missing_skills", [])` in `match_skills` and
`data.get("job_title", "Software Engineer")` in `collect_phase2`;
we model the dict by those two projections. -/
structure AgentData where
  missingSkills : List SkillEntry
  jobTitle : Option String
deriving DecidableEq, Repr

/-- The empty dict `{}` (no `missing_skills`, no `job_title`). -/
def emptyData : AgentData := AgentData.mk [] none

/-- Outcome of an agent's internal `_execute` coroutine: a result dict, a
raised `ValueError`, or any other raised exception. -/
inductive ExecOutcome where
  | ok (data : AgentData)
  | valueError (msg : String)
  | otherError (msg : String)
deriving DecidableEq, Repr

/-- The `AgentOutput` model returned by `BaseAgent.process`. -/
structure AgentOutput where
  success : Bool
  data : AgentData
  errors : List String
deriving DecidableEq, Repr

/-- Embedding of `BaseAgent.process`: wraps `_execute` with error handling.
On success it returns `AgentOutput(success=True, data=result_data, errors=[])`;
a raised `ValueError` yields `AgentOutput(success=False, data={}, errors=[str(e)])`;
any other exception yields
`AgentOutput(success=False, data={}, errors=["Agent error: " + str(e)])`. -/
def process : ExecOutcome → AgentOutput
  | ExecOutcome.ok d => AgentOutput.mk true d []
  | ExecOutcome.valueError m => AgentOutput.mk false emptyData [m]
  | ExecOutcome.otherError m => AgentOutput.mk false emptyData ["Agent error: " ++ m]

/-- Start event (`StartAnalysisEvent`), with `job_texts` as an insertion-ordered
association list standing for the Python dict. -/
structure StartAnalysisEvent where
  session_id : String
  resume_id : String
  job_ids : List String
  resume_text : Option String
  job_texts : Option (List (String × String))
deriving DecidableEq, Repr

/-- The aggregated result dict carried by the terminal `StopEvent`
built in `finalize`. -/
structure FinalResult where
  success : Bool
  session_id : Option String
  resume_id : Option String
  job_matches : List AgentData
  recommendations : Option AgentData
  interview_prep : Option AgentData
  market_insights : Option AgentData
deriving DecidableEq, Repr

/-- The closed set of events flowing through the workflow
(`backend/app/workflows/events.py`), plus the terminal `StopEvent`.
Fields read from `ctx.store` are dynamically typed in the source, hence
`Option String` for the session and resume identifiers that collectors copy
out of the store. -/
inductive WEvent where
  | resumeParse (resume_text : String) (resume_id : String)
  | jdAnalyze (job_id : String) (jd_text : String)
  | skillMatch (session_id : Option String) (resume_id : Option String) (job_id : String)
  | genRecommendations (session_id : Option String) (skill_gaps : List String)
  | genInterviewPrep (session_id : Option String) (skill_gaps : List String)
  | genMarketInsights (session_id : Option String) (job_title : String)
  | resumeParseResult (resume_id : String) (parsed_resume : AgentData)
  | jdAnalyzeResult (job_id : String) (parsed_jd : AgentData)
  | skillMatchResult (job_id : String) (match_result : AgentData)
  | recommendationResult (recommendations : AgentData)
  | interviewPrepResult (interview_prep : AgentData)
  | marketInsightsResult (market_insights : AgentData)
  | stop (result : FinalResult)
deriving DecidableEq, Repr

/-- The run context `ctx.store`: one field per key the workflow reads or
writes.  Keys that `start` may not yet have populated are `Option`-valued
(`none` models an absent key); list/dict-valued keys use the defaults the
source passes to `ctx.store.get(key, default=...)`. -/
structure Store where
  session_id : Option String
  resume_id : Option String
  job_ids : List String
  completed_steps : List String
  parsed_jobs : List (String × AgentData)
  skill_matches : List (String × AgentData)
  all_skill_gaps : List String
  needs_resume_parsing : Bool
  needs_jd_parsing : Bool
  parsed_resume : Option AgentData
  recommendations : Option AgentData
  interview_prep : Option AgentData
  market_insights : Option AgentData
deriving DecidableEq, Repr

/-- Python dict assignment `d[k] = v` on an insertion-ordered association
list: overwrite in place when the key is present, append otherwise. -/
def dictInsert (l : List (String × AgentData)) (k : String) (v : AgentData) :
    List (String × AgentData) :=
  if l.any (fun p => p.1 == k) then
    l.map (fun p => if p.1 == k then (k, v) else p)
  else
    l ++ [(k, v)]

/-- Outcome of the underlying progress sink call
(`broadcast_agent_progress`): it either returns or raises. -/
inductive SinkOutcome where
  | ok
  | raises (msg : String)
deriving DecidableEq, Repr

/-- Embedding of the module-level `broadcast_workflow_progress`: the entire
body is wrapped in `try/except Exception`, whose handler only logs, so the
call completes normally whatever the sink does. -/
def broadcast_workflow_progress (sink : SinkOutcome) : Except String Unit :=
  match sink with
  | SinkOutcome.ok => Except.ok ()
  | SinkOutcome.raises _ => Except.ok ()

/-- The flag `needs_resume_parsing = ev.resume_text is not None`
computed in `start`. -/
def needsResume (ev : StartAnalysisEvent) : Bool :=
  ev.resume_text.isSome

/-- The flag `needs_jd_parsing = ev.job_texts is not None and len(ev.job_texts) > 0`
computed in `start`. -/
def needsJd (ev : StartAnalysisEvent) : Bool :=
  match ev.job_texts with
  | some ts => ts.length != 0
  | none => false

/-- Embedding of the `start` step: it populates the run context and either
dispatches skill matching directly (when no parsing is needed) or dispatches
the resume-parse event and one JD-analyze event per entry of `job_texts`.
The emitted list is in creation order (the source returns the first created
event and sends the rest via `ctx.send_event`). -/
def start (ev : StartAnalysisEvent) : Store × List WEvent :=
  let s : Store := Store.mk (some ev.session_id) (some ev.resume_id) ev.job_ids
    [] [] [] [] (needsResume ev) (needsJd ev) none none none none
  if !(needsResume ev) && !(needsJd ev) then
    (s, ev.job_ids.map (fun j => WEvent.skillMatch (some ev.session_id) (some ev.resume_id) j))
  else
    (s,
      (if needsResume ev then
        [WEvent.resumeParse (ev.resume_text.getD "") ev.resume_id]
      else []) ++
      (if needsJd ev then
        (ev.job_texts.getD []).map (fun p => WEvent.jdAnalyze p.1 p.2)
      else []))

/-- Embedding of the `parse_resume` step: run the resume-parser agent through
`BaseAgent.process`, store the payload under `parsed_resume`, and return the
result event. -/
def parse_resume (s : Store) (resume_text : String) (resume_id : String)
    (outcome : ExecOutcome) : Store × WEvent :=
  let result := process outcome
  ({ s with parsed_resume := some result.data },
   WEvent.resumeParseResult resume_id result.data)

/-- Embedding of the `analyze_jd` step: run the JD-analyzer agent through
`BaseAgent.process`, insert the payload under the job id in `parsed_jobs`,
and return the result event. -/
def analyze_jd (s : Store) (job_id : String) (jd_text : String)
    (outcome : ExecOutcome) : Store × WEvent :=
  let result := process outcome
  ({ s with parsed_jobs := dictInsert s.parsed_jobs job_id result.data },
   WEvent.jdAnalyzeResult job_id result.data)

/-- The gap-aggregation loop of `match_skills`: for each entry of
`missing_skills`, append its name to the gap list when the name is non-empty
and not already present (membership checked against the growing list, exactly
as the Python loop mutates `all_gaps`). -/
def addGaps (gaps : List String) : List SkillEntry → List String
  | [] => gaps
  | sk :: rest =>
    let name := skillEntryName sk
    if name != "" && !(gaps.contains name) then addGaps (gaps ++ [name]) rest
    else addGaps gaps rest

/-- Embedding of the `match_skills` step: run the skill-matcher agent through
`BaseAgent.process`, insert the payload under the job id in `skill_matches`,
aggregate skill gaps, and return the result event. -/
def match_skills (s : Store) (session_id : Option String) (resume_id : Option String)
    (job_id : String) (outcome : ExecOutcome) : Store × WEvent :=
  let result := process outcome
  let s1 := { s with skill_matches := dictInsert s.skill_matches job_id result.data }
  let s2 := { s1 with all_skill_gaps := addGaps s1.all_skill_gaps result.data.missingSkills }
  (s2, WEvent.skillMatchResult job_id result.data)

/-- Embedding of the `generate_recommendations` step. -/
def generate_recommendations (s : Store) (session_id : Option String)
    (skill_gaps : List String) (outcome : ExecOutcome) : Store × WEvent :=
  let result := process outcome
  ({ s with recommendations := some result.data },
   WEvent.recommendationResult result.data)

/-- Embedding of the `generate_interview_prep` step. -/
def generate_interview_prep (s : Store) (session_id : Option String)
    (skill_gaps : List String) (outcome : ExecOutcome) : Store × WEvent :=
  let result := process outcome
  ({ s with interview_prep := some result.data },
   WEvent.interviewPrepResult result.data)

/-- Embedding of the `generate_market_insights` step. -/
def generate_market_insights (s : Store) (session_id : Option String)
    (job_title : String) (outcome : ExecOutcome) : Store × WEvent :=
  let result := process outcome
  ({ s with market_insights := some result.data },
   WEvent.marketInsightsResult result.data)

/-- The union type `ResumeParseResultEvent | JDAnalyzeResultEvent` consumed by
`collect_phase1`. -/
inductive Phase1Result where
  | resumeParsed (resume_id : String) (parsed_resume : AgentData)
  | jdParsed (job_id : String) (parsed_jd : AgentData)
deriving DecidableEq, Repr

/-- The completion marker `collect_phase1` appends to `completed_steps` for a
phase-1 result event. -/
def phase1Tag : Phase1Result → String
  | Phase1Result.resumeParsed _ _ => "resume_parsed"
  | Phase1Result.jdParsed j _ => "jd_parsed_" ++ j

/-- The recording half of `collect_phase1`: append the completion marker. -/
def recordPhase1 (s : Store) (r : Phase1Result) : Store :=
  { s with completed_steps := s.completed_steps ++ [phase1Tag r] }

/-- The phase-1 barrier condition `resume_done and jds_done` exactly as
`collect_phase1` computes it: wait for `resume_parsed` only if resume parsing
was requested, and for `jd_parsed_<jid>` for every `jid` in `job_ids` only if
JD parsing was requested. -/
def phase1Complete (s : Store) : Bool :=
  ((!s.needs_resume_parsing) || s.completed_steps.contains "resume_parsed") &&
  ((!s.needs_jd_parsing) ||
    s.job_ids.all (fun jid => s.completed_steps.contains ("jd_parsed_" ++ jid)))

/-- The phase-2 fan-out `collect_phase1` performs when its barrier condition
holds: one `SkillMatchEvent` per job id, in order. -/
def phase2Dispatch (s : Store) : List WEvent :=
  s.job_ids.map (fun j => WEvent.skillMatch s.session_id s.resume_id j)

/-- Embedding of the `collect_phase1` step: record the completion, then, if
the barrier condition holds on the updated store, dispatch phase 2. -/
def collect_phase1 (s : Store) (r : Phase1Result) : Store × List WEvent :=
  let s' := recordPhase1 s r
  if phase1Complete s' then (s', phase2Dispatch s') else (s', [])

/-- The completion marker `collect_phase2` appends for a job's match result. -/
def phase2Tag (job_id : String) : String :=
  "matched_" ++ job_id

/-- The recording half of `collect_phase2`. -/
def recordPhase2 (s : Store) (job_id : String) : Store :=
  { s with completed_steps := s.completed_steps ++ [phase2Tag job_id] }

/-- The phase-2 barrier condition `all_matched` exactly as `collect_phase2`
computes it: a `matched_<jid>` marker recorded for every `jid` in `job_ids`. -/
def phase2Complete (s : Store) : Bool :=
  s.job_ids.all (fun jid => s.completed_steps.contains ("matched_" ++ jid))

/-- Python dict lookup `d.get(k)` on the association list model. -/
def dictFind (l : List (String × AgentData)) (k : String) : Option AgentData :=
  (l.find? (fun p => p.1 == k)).map Prod.snd

/-- The job title `collect_phase2` passes to market insights:
`skill_matches.get(job_ids[0], \x7b\x7d).get("job_title", "Software Engineer")`,
with the empty dict when there are no job ids. -/
def phase3JobTitle (s : Store) : String :=
  match s.job_ids with
  | [] => emptyData.jobTitle.getD "Software Engineer"
  | j :: _ => (((dictFind s.skill_matches j).getD emptyData).jobTitle).getD "Software Engineer"

/-- The phase-3 fan-out `collect_phase2` performs when its barrier condition
holds, in creation order: recommendations, interview prep, market insights. -/
def phase3Dispatch (s : Store) : List WEvent :=
  [WEvent.genRecommendations s.session_id s.all_skill_gaps,
   WEvent.genInterviewPrep s.session_id s.all_skill_gaps,
   WEvent.genMarketInsights s.session_id (phase3JobTitle s)]

/-- Embedding of the `collect_phase2` step. -/
def collect_phase2 (s : Store) (job_id : String) (match_result : AgentData) :
    Store × List WEvent :=
  let s' := recordPhase2 s job_id
  if phase2Complete s' then (s', phase3Dispatch s') else (s', [])

/-- The union of the three phase-3 result events consumed by `finalize`. -/
inductive Phase3Result where
  | recommendationsDone (recommendations : AgentData)
  | interviewPrepDone (interview_prep : AgentData)
  | marketInsightsDone (market_insights : AgentData)
deriving DecidableEq, Repr

/-- The completion marker `finalize` appends for a phase-3 result event. -/
def phase3Tag : Phase3Result → String
  | Phase3Result.recommendationsDone _ => "recommendations"
  | Phase3Result.interviewPrepDone _ => "interview_prep"
  | Phase3Result.marketInsightsDone _ => "market_insights"

/-- The recording half of `finalize`. -/
def recordPhase3 (s : Store) (r : Phase3Result) : Store :=
  { s with completed_steps := s.completed_steps ++ [phase3Tag r] }

/-- The phase-3 barrier condition `phase3_done` exactly as `finalize`
computes it. -/
def phase3Complete (s : Store) : Bool :=
  ["recommendations", "interview_prep", "market_insights"].all
    (fun marker => s.completed_steps.contains marker)

/-- The aggregated result `finalize` packs into the terminal `StopEvent`:
`job_matches` is `list(skill_matches.values())` in insertion order, the other
fields are copied from the run context. -/
def finalResult (s : Store) : FinalResult :=
  FinalResult.mk true s.session_id s.resume_id (s.skill_matches.map Prod.snd)
    s.recommendations s.interview_prep s.market_insights

/-- Embedding of the `finalize` step. -/
def finalize (s : Store) (r : Phase3Result) : Store × List WEvent :=
  let s' := recordPhase3 s r
  if phase3Complete s' then (s', [WEvent.stop (finalResult s')]) else (s', [])

/-- Sequential processing of a trace of phase-1 result events by
`collect_phase1`, returning the final store, the number of invocations whose
barrier condition held (each such invocation dispatches phase 2), and all
emitted events in order. -/
def runCollect1 (s : Store) : List Phase1Result → Store × Nat × List WEvent
  | [] => (s, 0, [])
  | r :: rest =>
    let p := collect_phase1 s r
    let q := runCollect1 p.1 rest
    (q.1, (if phase1Complete p.1 then 1 else 0) + q.2.1, p.2 ++ q.2.2)

/-- Sequential processing of a trace of phase-2 result events by
`collect_phase2`, counting invocations whose barrier condition held. -/
def runCollect2 (s : Store) : List (String × AgentData) → Store × Nat × List WEvent
  | [] => (s, 0, [])
  | r :: rest =>
    let p := collect_phase2 s r.1 r.2
    let q := runCollect2 p.1 rest
    (q.1, (if phase2Complete p.1 then 1 else 0) + q.2.1, p.2 ++ q.2.2)

/-- The completion marker that the phase-1 result of a dispatched work event
will record in `collect_phase1` (`resume_parsed` for a resume-parse dispatch,
`jd_parsed_<job_id>` for a JD-analyze dispatch); `none` for events that are
not phase-1 work events. -/
def completionTag : WEvent → Option String
  | WEvent.resumeParse _ _ => some "resume_parsed"
  | WEvent.jdAnalyze j _ => some ("jd_parsed_" ++ j)
  | _ => none

/-- The phase-1 completion markers that the dispatched events of a handler
invocation will eventually produce. -/
def dispatchedCompletions (evs : List WEvent) : List String :=
  evs.filterMap completionTag

/-- The set of completion markers the phase-1 barrier waits for, read off the
condition in `collect_phase1`: `resume_parsed` if resume parsing was
requested, and `jd_parsed_<jid>` for every `jid` in `job_ids` if JD parsing
was requested. -/
def expectedPhase1 (s : Store) : List String :=
  (if s.needs_resume_parsing then ["resume_parsed"] else []) ++
  (if s.needs_jd_parsing then s.job_ids.map (fun j => "jd_parsed_" ++ j) else [])

/-- The set of completion markers the phase-2 barrier waits for. -/
def expectedPhase2 (s : Store) : List String :=
  s.job_ids.map (fun j => "matched_" ++ j)

/-- The set of completion markers the phase-3 barrier waits for. -/
def expectedPhase3 : List String :=
  ["recommendations", "interview_prep", "market_insights"]

theorem all_contains_iff_subset (E l : List String) :
    (E.all (fun x => l.contains x)) = true ↔ E ⊆ l := by
  simp [List.all_eq_true, List.elem_iff, List.subset_def]

theorem phase1Complete_eq_all (s : Store) :
    phase1Complete s = (expectedPhase1 s).all (fun x => s.completed_steps.contains x) := by
  cases hr : s.needs_resume_parsing <;> cases hj : s.needs_jd_parsing <;>
    simp [phase1Complete, expectedPhase1, hr, hj, List.all_append, List.all_map,
      Function.comp_def]

theorem phase2Complete_eq_all (s : Store) :
    phase2Complete s = (expectedPhase2 s).all (fun x => s.completed_steps.contains x) := by
  simp [phase2Complete, expectedPhase2, List.all_map, Function.comp_def]

theorem phase3Complete_eq_all (s : Store) :
    phase3Complete s = expectedPhase3.all (fun x => s.completed_steps.contains x) := by
  rfl

theorem phase1Complete_iff_subset (s : Store) :
    phase1Complete s = true ↔ expectedPhase1 s ⊆ s.completed_steps := by
  rw [phase1Complete_eq_all, all_contains_iff_subset]

theorem phase2Complete_iff_subset (s : Store) :
    phase2Complete s = true ↔ expectedPhase2 s ⊆ s.completed_steps := by
  rw [phase2Complete_eq_all, all_contains_iff_subset]

theorem phase3Complete_iff_subset (s : Store) :
    phase3Complete s = true ↔ expectedPhase3 ⊆ s.completed_steps := by
  rw [phase3Complete_eq_all, all_contains_iff_subset]

theorem collect_phase1_fst (s : Store) (r : Phase1Result) :
    (collect_phase1 s r).1 = recordPhase1 s r := by
  by_cases h : phase1Complete (recordPhase1 s r) = true <;> simp [collect_phase1, h]

theorem collect_phase2_fst (s : Store) (j : String) (d : AgentData) :
    (collect_phase2 s j d).1 = recordPhase2 s j := by
  by_cases h : phase2Complete (recordPhase2 s j) = true <;> simp [collect_phase2, h]

theorem finalize_fst (s : Store) (r : Phase3Result) :
    (finalize s r).1 = recordPhase3 s r := by
  by_cases h : phase3Complete (recordPhase3 s r) = true <;> simp [finalize, h]

theorem expectedPhase1_record (s : Store) (r : Phase1Result) :
    expectedPhase1 (recordPhase1 s r) = expectedPhase1 s := rfl

theorem expectedPhase2_record (s : Store) (j : String) :
    expectedPhase2 (recordPhase2 s j) = expectedPhase2 s := rfl

/-- Sample start event used in concrete evaluations: resume parsing
requested, no JD parsing, a single job id. -/
def startEv1 : StartAnalysisEvent :=
  StartAnalysisEvent.mk "s1" "r1" ["j1"] (some "resume text") none

/-- The run context right after `start startEv1`. -/
def store1 : Store :=
  (start startEv1).1

/-- Number of barrier firings along a trace of completion markers: the
barrier (expecting the markers `E`) fires on an invocation when every
expected marker is contained in the completion list after appending the
invocation's marker. -/
def countFires (E : List String) (completed : List String) : List String → Nat
  | [] => 0
  | t :: rest =>
    (if E.all (fun x => (completed ++ [t]).contains x) then 1 else 0) +
      countFires E (completed ++ [t]) rest

theorem runCollect1_count (s : Store) (tr : List Phase1Result) :
    (runCollect1 s tr).2.1 =
      countFires (expectedPhase1 s) s.completed_steps (tr.map phase1Tag) := by
  induction tr generalizing s with
  | nil => rfl
  | cons r rest ih =>
    have h1 : (collect_phase1 s r).1 = recordPhase1 s r := collect_phase1_fst s r
    simp only [runCollect1, countFires, List.map, h1, ih, phase1Complete_eq_all]
    rfl

theorem runCollect2_count (s : Store) (tr : List (String × AgentData)) :
    (runCollect2 s tr).2.1 =
      countFires (expectedPhase2 s) s.completed_steps (tr.map (fun r => phase2Tag r.1)) := by
  induction tr generalizing s with
  | nil => rfl
  | cons r rest ih =>
    have h1 : (collect_phase2 s r.1 r.2).1 = recordPhase2 s r.1 := collect_phase2_fst s r.1 r.2
    simp only [runCollect2, countFires, List.map, h1, ih, phase2Complete_eq_all]
    rfl

theorem countFires_once (E : List String) (hnd : E.Nodup) :
    ∀ (tags completed : List String),
      (completed ++ tags).Perm E → ¬ E ⊆ completed → countFires E completed tags = 1 := by
  intro tags
  induction tags with
  | nil =>
    intro completed hperm hnsub
    exfalso
    apply hnsub
    intro x hx
    have hmem := hperm.symm.subset hx
    simpa using hmem
  | cons t rest ih =>
    intro completed hperm hnsub
    by_cases hrest : rest = []
    · subst hrest
      have hsub : E ⊆ completed ++ [t] := fun x hx => hperm.symm.subset hx
      have hc : (E.all (fun x => (completed ++ [t]).contains x)) = true :=
        (all_contains_iff_subset E (completed ++ [t])).mpr hsub
      simp only [countFires]
      rw [hc]
      rfl
    · have hlen0 : completed.length + rest.length + 1 = E.length := by
        have h := hperm.length_eq
        simp [List.length_append] at h
        omega
      have hrl : 0 < rest.length := List.length_pos.mpr hrest
      have hnsub' : ¬ E ⊆ (completed ++ [t]) := by
        intro hsub
        have hle := (hnd.subperm hsub).length_le
        simp [List.length_append] at hle
        omega
      have hc : (E.all (fun x => (completed ++ [t]).contains x)) = false := by
        cases h : (E.all (fun x => (completed ++ [t]).contains x))
        · rfl
        · exact absurd ((all_contains_iff_subset _ _).mp h) hnsub'
      have hperm' : ((completed ++ [t]) ++ rest).Perm E := by
        simpa using hperm
      simp only [countFires]
      rw [hc]
      simp [ih (completed ++ [t]) hperm' hnsub']

/-- C1 counterexample: there is no one-shot guard.  With resume parsing
requested and one job id, delivering the resume-parsed completion and then a
duplicate of it makes `collect_phase1` fire twice: the phase-2 skill-match
work event for the job is emitted a second time. -/
theorem barrier_refires_on_duplicate :
    (runCollect1 store1 [Phase1Result.resumeParsed "r1" emptyData,
        Phase1Result.resumeParsed "r1" emptyData]).2.1 = 2 ∧
    (runCollect1 store1 [Phase1Result.resumeParsed "r1" emptyData,
        Phase1Result.resumeParsed "r1" emptyData]).2.2 =
      [WEvent.skillMatch (some "s1") (some "r1") "j1",
       WEvent.skillMatch (some "s1") (some "r1") "j1"] := by
  constructor <;> rfl

/-- C1 (amended): when each expected completion of a phase is delivered
exactly once (the delivered markers are a permutation of the expected,
duplicate-free, non-empty marker set and no completion was recorded before),
the collector's barrier condition holds on exactly one invocation — the one
processing the last expected completion — so the next phase's work events are
dispatched exactly once.  (Without that uniqueness assumption the guard can
re-fire, see the counterexample.) -/
theorem barrier_fires_once_unique_delivery :
    (∀ (s : Store) (tr : List Phase1Result),
       s.completed_steps = [] →
       (tr.map phase1Tag).Perm (expectedPhase1 s) →
       (expectedPhase1 s).Nodup →
       expectedPhase1 s ≠ [] →
       (runCollect1 s tr).2.1 = 1) ∧
    (∀ (s : Store) (tr : List (String × AgentData)),
       s.completed_steps = [] →
       (tr.map (fun r => phase2Tag r.1)).Perm (expectedPhase2 s) →
       (expectedPhase2 s).Nodup →
       expectedPhase2 s ≠ [] →
       (runCollect2 s tr).2.1 = 1) := by
  constructor
  · intro s tr hc hperm hnd hne
    rw [runCollect1_count, hc]
    apply countFires_once _ hnd
    · simpa using hperm
    · intro hsub
      exact hne (List.subset_nil.mp hsub)
  · intro s tr hc hperm hnd hne
    rw [runCollect2_count, hc]
    apply countFires_once _ hnd
    · simpa using hperm
    · intro hsub
      exact hne (List.subset_nil.mp hsub)

/-- Witness for C1 at a concrete store and single-delivery trace. -/
theorem barrier_fires_once_unique_delivery_witness :
    (runCollect1 store1 [Phase1Result.resumeParsed "r1" emptyData]).2.1 = 1 :=
  barrier_fires_once_unique_delivery.1 store1 [Phase1Result.resumeParsed "r1" emptyData]
    rfl (by decide) (by decide) (by decide)

/-- C7: every call a handler makes to `broadcast_workflow_progress` completes
normally — an exception raised by the underlying progress sink is caught by
the `try/except` wrapper and never propagates to the calling handler, so a
progress-reporting failure can never fail a run. -/
theorem broadcast_never_propagates (sink : SinkOutcome) :
    broadcast_workflow_progress sink = Except.ok () := by
  cases sink <;> rfl

/-- C10: a start event with no resume text, absent or empty job texts and an
empty job-id list makes `start` store the initial run-context keys and emit
no event at all, so no work handler is ever invoked and no terminal event is
produced for that run. -/
theorem start_empty_input_emits_nothing (ev : StartAnalysisEvent)
    (hr : ev.resume_text = none)
    (hj : ev.job_texts = none ∨ ev.job_texts = some [])
    (hi : ev.job_ids = []) :
    (start ev).2 = [] ∧
    (start ev).1 = Store.mk (some ev.session_id) (some ev.resume_id) []
      [] [] [] [] false false none none none none := by
  have hnr : needsResume ev = false := by
    simp [needsResume, hr]
  have hnj : needsJd ev = false := by
    rcases hj with hj | hj <;> simp [needsJd, hj]
  constructor
  · simp [start, hnr, hnj, hi]
  · simp [start, hnr, hnj, hi]

/-- Witness for C10 at a concrete start event. -/
theorem start_empty_input_emits_nothing_witness :
    (start (StartAnalysisEvent.mk "s1" "r1" [] none none)).2 = [] ∧
    (start (StartAnalysisEvent.mk "s1" "r1" [] none none)).1 =
      Store.mk (some "s1") (some "r1") [] [] [] [] [] false false none none none none :=
  start_empty_input_emits_nothing (StartAnalysisEvent.mk "s1" "r1" [] none none)
    rfl (Or.inl rfl) rfl

end Workflow

namespace Workflow

theorem contains_congr (c₁ c₂ : List String) (h : ∀ x, x ∈ c₁ ↔ x ∈ c₂) (a : String) :
    c₁.contains a = c₂.contains a := by
  have h1 : (c₁.contains a = true) ↔ (c₂.contains a = true) := by
    rw [List.elem_iff, List.elem_iff]
    exact h a
  cases hx : c₁.contains a <;> cases hy : c₂.contains a <;> simp_all

theorem all_contains_congr (E c₁ c₂ : List String) (h : ∀ x, x ∈ c₁ ↔ x ∈ c₂) :
    E.all (fun x => c₁.contains x) = E.all (fun x => c₂.contains x) := by
  induction E with
  | nil => rfl
  | cons a E ih =>
    rw [List.all_cons, List.all_cons, ih, contains_congr c₁ c₂ h a]

/-- C4 counterexample: recording the same completion twice is not a no-op on
the recorded completion state.  After `collect_phase1` processes the
resume-parsed result, the completion list is `[resume_parsed]`; processing a
duplicate of the same result event appends a second copy, so the record
changes. -/
theorem record_duplicate_not_noop :
    (collect_phase1 (collect_phase1 store1 (Phase1Result.resumeParsed "r1" emptyData)).1
        (Phase1Result.resumeParsed "r1" emptyData)).1.completed_steps =
      ["resume_parsed", "resume_parsed"] ∧
    (collect_phase1 store1 (Phase1Result.resumeParsed "r1" emptyData)).1.completed_steps =
      ["resume_parsed"] := by
  constructor <;> rfl

/-- C4 (amended): recording the same completion twice appends a duplicate
entry to `completed_steps` (it is not a no-op, see the counterexample), but
every barrier's firing condition is computed from membership tests only, so
it depends only on the distinct set of recorded completions: replacing the
completion list by any list with the same members leaves all three firing
conditions unchanged, and in particular a duplicate result event does not
change their value. -/
theorem fire_condition_membership_only (s : Store) (c : List String)
    (h : ∀ x, x ∈ s.completed_steps ↔ x ∈ c) :
    phase1Complete { s with completed_steps := c } = phase1Complete s ∧
    phase2Complete { s with completed_steps := c } = phase2Complete s ∧
    phase3Complete { s with completed_steps := c } = phase3Complete s := by
  refine ⟨?_, ?_, ?_⟩
  · rw [phase1Complete_eq_all, phase1Complete_eq_all]
    exact all_contains_congr (expectedPhase1 s) c s.completed_steps (fun x => (h x).symm)
  · rw [phase2Complete_eq_all, phase2Complete_eq_all]
    exact all_contains_congr (expectedPhase2 s) c s.completed_steps (fun x => (h x).symm)
  · rw [phase3Complete_eq_all, phase3Complete_eq_all]
    exact all_contains_congr expectedPhase3 c s.completed_steps (fun x => (h x).symm)

/-- Witness for C4 at a concrete store: a duplicated completion list gives
the same firing conditions as the single-entry one. -/
theorem fire_condition_membership_only_witness :
    phase1Complete { store1 with completed_steps := ["resume_parsed", "resume_parsed"] } =
      phase1Complete { store1 with completed_steps := ["resume_parsed"] } ∧
    phase2Complete { store1 with completed_steps := ["resume_parsed", "resume_parsed"] } =
      phase2Complete { store1 with completed_steps := ["resume_parsed"] } ∧
    phase3Complete { store1 with completed_steps := ["resume_parsed", "resume_parsed"] } =
      phase3Complete { store1 with completed_steps := ["resume_parsed"] } :=
  fire_condition_membership_only { store1 with completed_steps := ["resume_parsed"] }
    ["resume_parsed", "resume_parsed"] (by intro x; simp)

/-- C5: phase P+1 work events are only dispatched when phase P's barrier
condition holds or phase P is skipped.  The only steps that create
`SkillMatchEvent`s are `collect_phase1`, which dispatches solely when its
barrier condition holds on the updated store, and `start`, which dispatches
them solely in its skip branch (no parsing requested); the only step that
creates the three phase-3 generation events is `collect_phase2`, which
dispatches solely when every job id has a recorded matched-completion. -/
theorem phase_work_gated_by_barrier :
    (∀ (s : Store) (r : Phase1Result),
       (collect_phase1 s r).2 ≠ [] → phase1Complete (collect_phase1 s r).1 = true) ∧
    (∀ (ev : StartAnalysisEvent) (sid rid : Option String) (j : String),
       WEvent.skillMatch sid rid j ∈ (start ev).2 →
       needsResume ev = false ∧ needsJd ev = false) ∧
    (∀ (s : Store) (j : String) (d : AgentData),
       (collect_phase2 s j d).2 ≠ [] → phase2Complete (collect_phase2 s j d).1 = true) := by
  refine ⟨?_, ?_, ?_⟩
  · intro s r hne
    cases h : phase1Complete (recordPhase1 s r)
    · exact absurd (by simp [collect_phase1, h]) hne
    · rw [collect_phase1_fst]
      exact h
  · intro ev sid rid j hmem
    by_cases h : (!(needsResume ev) && !(needsJd ev)) = true
    · simp only [Bool.and_eq_true, Bool.not_eq_true'] at h
      exact h
    · exfalso
      simp [start, h, List.mem_append, List.mem_map] at hmem
  · intro s j d hne
    cases h : phase2Complete (recordPhase2 s j)
    · exact absurd (by simp [collect_phase2, h]) hne
    · rw [collect_phase2_fst]
      exact h

/-- Witness for C5: a firing invocation of `collect_phase1` at a concrete
store indeed has its barrier condition satisfied. -/
theorem phase_work_gated_by_barrier_witness :
    phase1Complete (collect_phase1 store1 (Phase1Result.resumeParsed "r1" emptyData)).1 = true :=
  phase_work_gated_by_barrier.1 store1 (Phase1Result.resumeParsed "r1" emptyData) (by decide)

end Workflow

namespace Workflow

/-- Sample agent payload with two missing-skill entries and a job title. -/
def sampleData : AgentData :=
  AgentData.mk [SkillEntry.dict (some "Kubernetes"), SkillEntry.other "Rust"]
    (some "Platform Engineer")

theorem addGaps_cons (gaps : List String) (sk : SkillEntry) (rest : List SkillEntry) :
    addGaps gaps (sk :: rest) =
      if skillEntryName sk != "" && !(gaps.contains (skillEntryName sk))
      then addGaps (gaps ++ [skillEntryName sk]) rest
      else addGaps gaps rest := rfl

theorem addGaps_preserves (l : List SkillEntry) :
    ∀ gaps : List String, gaps.Nodup → "" ∉ gaps →
      (addGaps gaps l).Nodup ∧ "" ∉ addGaps gaps l := by
  induction l with
  | nil =>
    intro gaps hn he
    exact ⟨hn, he⟩
  | cons sk rest ih =>
    intro gaps hn he
    rw [addGaps_cons]
    by_cases hc : (skillEntryName sk != "" && !(gaps.contains (skillEntryName sk))) = true
    · rw [if_pos hc]
      simp only [Bool.and_eq_true, bne_iff_ne, Bool.not_eq_true'] at hc
      obtain ⟨hne, hcf⟩ := hc
      have hnm : skillEntryName sk ∉ gaps := by
        intro hm
        simp at hcf
        exact hcf hm
      apply ih
      · simp [List.nodup_append, hn, hnm]
      · intro hm
        rcases List.mem_append.mp hm with hm | hm
        · exact he hm
        · have hx : "" = skillEntryName sk := by simpa using hm
          exact hne hx.symm
    · rw [if_neg hc]
      exact ih gaps hn he

/-- C9: one invocation of `match_skills` preserves the invariant of the
aggregated gap list: a missing skill's name is appended only when it is
non-empty and not already present, so if `all_skill_gaps` was duplicate-free
and contained no empty string before the invocation, it still is after
(and the list starts empty, so the invariant holds after every invocation
of a run). -/
theorem match_skills_gap_list_invariant (s : Store) (sid rid : Option String)
    (j : String) (outcome : ExecOutcome)
    (hn : s.all_skill_gaps.Nodup) (he : "" ∉ s.all_skill_gaps) :
    ((match_skills s sid rid j outcome).1.all_skill_gaps).Nodup ∧
      "" ∉ (match_skills s sid rid j outcome).1.all_skill_gaps :=
  addGaps_preserves _ _ hn he

/-- Witness for C9 at a concrete store and payload. -/
theorem match_skills_gap_list_invariant_witness :
    ((match_skills store1 (some "s1") (some "r1") "j1"
        (ExecOutcome.ok sampleData)).1.all_skill_gaps).Nodup ∧
      "" ∉ (match_skills store1 (some "s1") (some "r1") "j1"
        (ExecOutcome.ok sampleData)).1.all_skill_gaps :=
  match_skills_gap_list_invariant store1 (some "s1") (some "r1") "j1"
    (ExecOutcome.ok sampleData) (by decide) (by decide)

/-- C3 counterexample: the result event emitted on adapter failure is not
flagged as failed and carries no error detail — it is identical to the event
emitted for a successful run that returned the empty payload.  The failed
flag and error messages exist only in the adapter's `AgentOutput`, which the
handler drops when building the event. -/
theorem failed_result_event_carries_no_flag :
    (match_skills store1 (some "s1") (some "r1") "j1" (ExecOutcome.otherError "boom")).2 =
      (match_skills store1 (some "s1") (some "r1") "j1" (ExecOutcome.ok emptyData)).2 ∧
    (process (ExecOutcome.otherError "boom")).success = false := by
  constructor <;> rfl

/-- C3 (amended): every work handler routes its adapter call through
`BaseAgent.process`, which is total — for every outcome of the adapter's
internal `_execute`, including raised errors, the handler returns exactly one
result event carrying the wrapper's payload (the engine-supplied empty-dict
fallback on failure) instead of propagating the exception; the failed flag
and error detail are recorded in the adapter's `AgentOutput` but not in the
result event; and the completion marker the phase barrier records for the
event does not depend on the outcome, so the barrier still reaches its
expected completion set and fires. -/
theorem handler_failure_still_emits_result (s : Store) (outcome : ExecOutcome) :
    (∀ rt rid, (parse_resume s rt rid outcome).2 =
        WEvent.resumeParseResult rid (process outcome).data) ∧
    (∀ j jt, (analyze_jd s j jt outcome).2 =
        WEvent.jdAnalyzeResult j (process outcome).data) ∧
    (∀ sid rid j, (match_skills s sid rid j outcome).2 =
        WEvent.skillMatchResult j (process outcome).data) ∧
    (∀ sid gaps, (generate_recommendations s sid gaps outcome).2 =
        WEvent.recommendationResult (process outcome).data) ∧
    (∀ sid gaps, (generate_interview_prep s sid gaps outcome).2 =
        WEvent.interviewPrepResult (process outcome).data) ∧
    (∀ sid jt, (generate_market_insights s sid jt outcome).2 =
        WEvent.marketInsightsResult (process outcome).data) ∧
    (∀ m, (outcome = ExecOutcome.valueError m ∨ outcome = ExecOutcome.otherError m) →
        (process outcome).success = false ∧ (process outcome).errors ≠ []) ∧
    (∀ j, (collect_phase2 s j (process outcome).data).1.completed_steps =
        s.completed_steps ++ [phase2Tag j]) := by
  refine ⟨fun _ _ => rfl, fun _ _ => rfl, fun _ _ _ => rfl, fun _ _ => rfl,
    fun _ _ => rfl, fun _ _ => rfl, ?_, fun j => by rw [collect_phase2_fst]; rfl⟩
  intro m hm
  rcases hm with hm | hm <;> subst hm <;> exact ⟨rfl, by simp [process]⟩

/-- Witness for C3 at a concrete store and a failing adapter outcome. -/
theorem handler_failure_still_emits_result_witness :
    (match_skills store1 (some "s1") (some "r1") "j1" (ExecOutcome.otherError "x")).2 =
      WEvent.skillMatchResult "j1" (process (ExecOutcome.otherError "x")).data ∧
    (process (ExecOutcome.otherError "x")).success = false :=
  ⟨(handler_failure_still_emits_result store1 (ExecOutcome.otherError "x")).2.2.1
      (some "s1") (some "r1") "j1",
   ((handler_failure_still_emits_result store1 (ExecOutcome.otherError "x")).2.2.2.2.2.2.1
      "x" (Or.inr rfl)).1⟩

end Workflow

namespace Workflow

theorem filterMap_some {α β : Type} (f : α → β) (l : List α) :
    l.filterMap (fun a => some (f a)) = l.map f := by
  induction l with
  | nil => rfl
  | cons a l ih => simp [List.filterMap_cons, ih]

theorem start_fst (ev : StartAnalysisEvent) :
    (start ev).1 = Store.mk (some ev.session_id) (some ev.resume_id) ev.job_ids
      [] [] [] [] (needsResume ev) (needsJd ev) none none none none := by
  by_cases h : (!(needsResume ev) && !(needsJd ev)) = true <;> simp [start, h]

theorem start_snd_skip (ev : StartAnalysisEvent)
    (h : (!(needsResume ev) && !(needsJd ev)) = true) :
    (start ev).2 = ev.job_ids.map
      (fun j => WEvent.skillMatch (some ev.session_id) (some ev.resume_id) j) := by
  simp [start, h]

theorem start_snd_parse (ev : StartAnalysisEvent)
    (h : ¬ ((!(needsResume ev) && !(needsJd ev)) = true)) :
    (start ev).2 =
      (if needsResume ev then
        [WEvent.resumeParse (ev.resume_text.getD "") ev.resume_id]
      else []) ++
      (if needsJd ev then
        (ev.job_texts.getD []).map (fun p => WEvent.jdAnalyze p.1 p.2)
      else []) := by
  simp [start, h]

/-- The completion markers the events dispatched by `start` will produce,
in closed form: `resume_parsed` when resume parsing is requested, and
`jd_parsed_<key>` for each key of `job_texts` when JD parsing is requested. -/
theorem dispatched_eq (ev : StartAnalysisEvent) :
    dispatchedCompletions (start ev).2 =
      (if needsResume ev then ["resume_parsed"] else []) ++
      (if needsJd ev then
        (ev.job_texts.getD []).map (fun p => "jd_parsed_" ++ p.1)
      else []) := by
  by_cases hskip : (!(needsResume ev) && !(needsJd ev)) = true
  · have h12 := hskip
    simp only [Bool.and_eq_true, Bool.not_eq_true'] at h12
    rw [start_snd_skip ev hskip]
    simp [dispatchedCompletions, completionTag, h12.1, h12.2, List.filterMap_map,
      Function.comp_def]
  · rw [start_snd_parse ev hskip]
    cases h1 : needsResume ev <;> cases h2 : needsJd ev <;>
      simp [dispatchedCompletions, completionTag, List.filterMap_append,
        List.filterMap_map, Function.comp_def, filterMap_some]

end Workflow

namespace Workflow

/-- Start event whose `job_texts` keys do not match `job_ids`. -/
def startEvMismatch : StartAnalysisEvent :=
  StartAnalysisEvent.mk "s2" "r2" ["a"] none (some [("b", "jd text b")])

/-- Start event requesting both resume and JD parsing, with matching keys. -/
def startEvBoth : StartAnalysisEvent :=
  StartAnalysisEvent.mk "s4" "r4" ["j1", "j2"] (some "resume text")
    (some [("j1", "t1"), ("j2", "t2")])

/-- Start event with nothing to parse and three job ids. -/
def startEv3 : StartAnalysisEvent :=
  StartAnalysisEvent.mk "s3" "r3" ["j1", "j2", "j3"] none none

/-- C2 counterexample: for the start input with `job_ids = ["a"]` but
`job_texts` keyed by `"b"`, the phase-1 barrier expects the completion
`jd_parsed_a`, which no dispatched work event will ever produce (the start
handler dispatched work completing as `jd_parsed_b`), so the expected set is
not what was actually dispatched. -/
theorem expected_dispatched_mismatch :
    "jd_parsed_a" ∈ expectedPhase1 (start startEvMismatch).1 ∧
    "jd_parsed_a" ∉ dispatchedCompletions (start startEvMismatch).2 ∧
    "jd_parsed_b" ∈ dispatchedCompletions (start startEvMismatch).2 := by
  refine ⟨?_, ?_, ?_⟩ <;> decide

/-- C2 (amended): provided that, whenever JD parsing is requested, the key
set of `job_texts` coincides with `job_ids` (the barrier reads `job_ids`
while dispatch iterates `job_texts`, so this is required — see the
counterexample), the phase-1 barrier's expected completion set has exactly
the same members as the completions of what the start handler actually
dispatched: it waits for a resume-parsed completion only if `resume_text`
was supplied and for jd-parsed completions only if `job_texts` was supplied
non-empty; and when neither is supplied, no parse work is dispatched at all
and the start handler dispatches a skill-match work event for every job id
directly. -/
theorem expected_matches_dispatched (ev : StartAnalysisEvent)
    (hkeys : needsJd ev = true →
      ∀ j, j ∈ (ev.job_texts.getD []).map Prod.fst ↔ j ∈ ev.job_ids) :
    (∀ x, x ∈ expectedPhase1 (start ev).1 ↔ x ∈ dispatchedCompletions (start ev).2) ∧
    (needsResume ev = false → needsJd ev = false →
      dispatchedCompletions (start ev).2 = [] ∧
      (start ev).2 = ev.job_ids.map
        (fun j => WEvent.skillMatch (some ev.session_id) (some ev.resume_id) j)) := by
  constructor
  · intro x
    rw [start_fst, dispatched_eq]
    simp only [expectedPhase1]
    cases h2 : needsJd ev
    · simp
    · have hk := hkeys h2
      have hmap : (x ∈ ev.job_ids.map (fun j => "jd_parsed_" ++ j)) ↔
          (x ∈ (ev.job_texts.getD []).map (fun p => "jd_parsed_" ++ p.1)) := by
        constructor
        · intro hx
          rcases List.mem_map.mp hx with ⟨a, ha, rfl⟩
          rcases List.mem_map.mp ((hk a).mpr ha) with ⟨p, hp, hpe⟩
          exact List.mem_map.mpr ⟨p, hp, by rw [hpe]⟩
        · intro hx
          rcases List.mem_map.mp hx with ⟨p, hp, rfl⟩
          exact List.mem_map.mpr ⟨p.1, (hk p.1).mp (List.mem_map.mpr ⟨p, hp, rfl⟩), rfl⟩
      simp [hmap]
  · intro h1 h2
    have hskip : (!(needsResume ev) && !(needsJd ev)) = true := by
      simp [h1, h2]
    constructor
    · rw [dispatched_eq]
      simp [h1, h2]
    · exact start_snd_skip ev hskip

/-- Witness for C2: on a well-formed input the expected and dispatched sets
agree, and on a nothing-to-parse input the start handler dispatches one
skill-match event per job id. -/
theorem expected_matches_dispatched_witness :
    ("jd_parsed_j1" ∈ expectedPhase1 (start startEvBoth).1 ↔
      "jd_parsed_j1" ∈ dispatchedCompletions (start startEvBoth).2) ∧
    (start startEv3).2 = ["j1", "j2", "j3"].map
      (fun j => WEvent.skillMatch (some "s3") (some "r3") j) :=
  ⟨(expected_matches_dispatched startEvBoth (fun _ _ => Iff.rfl)).1 "jd_parsed_j1",
   ((expected_matches_dispatched startEv3
      (by intro h; simp [startEv3, needsJd] at h)).2 rfl rfl).2⟩

end Workflow

namespace Workflow

/-- The run context after `start startEv3` (three job ids, nothing to
parse). -/
def store3 : Store :=
  (start startEv3).1

/-- Sequential execution of `match_skills` for a list of jobs, each with its
adapter outcome, threading the run context. -/
def runMatchAll (s : Store) : List (String × ExecOutcome) → Store
  | [] => s
  | j :: rest => runMatchAll (match_skills s s.session_id s.resume_id j.1 j.2).1 rest

theorem dictInsert_keys_notmem (l : List (String × AgentData)) (k : String)
    (v : AgentData) (h : k ∉ l.map Prod.fst) :
    (dictInsert l k v).map Prod.fst = l.map Prod.fst ++ [k] := by
  have hany : l.any (fun p => p.1 == k) = false := by
    cases ha : l.any (fun p => p.1 == k)
    · rfl
    · exfalso
      rcases List.any_eq_true.mp ha with ⟨p, hp, hpk⟩
      exact h (List.mem_map.mpr ⟨p, hp, by simpa using hpk⟩)
  simp [dictInsert, hany]

theorem runMatchAll_keys : ∀ (jobs : List (String × ExecOutcome)) (s : Store),
    (jobs.map Prod.fst).Nodup →
    (∀ k, k ∈ jobs.map Prod.fst → k ∉ s.skill_matches.map Prod.fst) →
    (runMatchAll s jobs).skill_matches.map Prod.fst =
      s.skill_matches.map Prod.fst ++ jobs.map Prod.fst := by
  intro jobs
  induction jobs with
  | nil =>
    intro s _ _
    simp [runMatchAll]
  | cons j rest ih =>
    intro s hnd hdisj
    have hjmem : j.1 ∉ s.skill_matches.map Prod.fst := hdisj j.1 (by simp)
    have hstep : ((match_skills s s.session_id s.resume_id j.1 j.2).1).skill_matches =
        dictInsert s.skill_matches j.1 (process j.2).data := rfl
    have hkeys : ((match_skills s s.session_id s.resume_id j.1 j.2).1).skill_matches.map
        Prod.fst = s.skill_matches.map Prod.fst ++ [j.1] := by
      rw [hstep]
      exact dictInsert_keys_notmem s.skill_matches j.1 (process j.2).data hjmem
    have hnd' : (rest.map Prod.fst).Nodup := (List.nodup_cons.mp (by simpa using hnd)).2
    have hjrest : j.1 ∉ rest.map Prod.fst := (List.nodup_cons.mp (by simpa using hnd)).1
    have hdisj' : ∀ k, k ∈ rest.map Prod.fst →
        k ∉ ((match_skills s s.session_id s.resume_id j.1 j.2).1).skill_matches.map
          Prod.fst := by
      intro k hk
      rw [hkeys]
      intro hmem
      rcases List.mem_append.mp hmem with hmem | hmem
      · exact hdisj k (by simp [hk]) hmem
      · have : k = j.1 := by simpa using hmem
        exact hjrest (this ▸ hk)
    have := ih ((match_skills s s.session_id s.resume_id j.1 j.2).1) hnd' hdisj'
    calc (runMatchAll s (j :: rest)).skill_matches.map Prod.fst
        = (runMatchAll ((match_skills s s.session_id s.resume_id j.1 j.2).1)
            rest).skill_matches.map Prod.fst := rfl
      _ = ((match_skills s s.session_id s.resume_id j.1 j.2).1).skill_matches.map
            Prod.fst ++ rest.map Prod.fst := this
      _ = (s.skill_matches.map Prod.fst ++ [j.1]) ++ rest.map Prod.fst := by rw [hkeys]
      _ = s.skill_matches.map Prod.fst ++ (j :: rest).map Prod.fst := by simp

/-- C6: when all three phase-3 completions are recorded, `finalize` emits the
terminal event carrying the aggregated result: success, the session and
resume ids, `job_matches = list(skill_matches.values())`, and the
recommendations, interview-prep and market-insights values stored in the run
context; and a phase-2 pass over distinct job ids stores exactly one match
entry per job id (so the job-match collection has exactly one entry keyed by
each analyzed job id). -/
theorem finalize_aggregates_one_match_per_job :
    (∀ (s : Store) (r : Phase3Result),
       phase3Complete (recordPhase3 s r) = true →
       (finalize s r).2 = [WEvent.stop (FinalResult.mk true s.session_id s.resume_id
         (s.skill_matches.map Prod.snd) s.recommendations s.interview_prep
         s.market_insights)]) ∧
    (∀ (s : Store) (jobs : List (String × ExecOutcome)),
       s.skill_matches = [] →
       (jobs.map Prod.fst).Nodup →
       (runMatchAll s jobs).skill_matches.map Prod.fst = jobs.map Prod.fst ∧
       ((runMatchAll s jobs).skill_matches.map Prod.snd).length = jobs.length) := by
  constructor
  · intro s r h
    simp only [finalize, finalResult]
    rw [if_pos h]
    simp [recordPhase3]
  · intro s jobs hempty hnd
    have hkeys := runMatchAll_keys jobs s hnd (by simp [hempty])
    rw [hempty] at hkeys
    simp only [List.map_nil, List.nil_append] at hkeys
    refine ⟨hkeys, ?_⟩
    have hlen : (runMatchAll s jobs).skill_matches.length = jobs.length := by
      have h1 := congrArg List.length hkeys
      simpa using h1
    simpa using hlen

/-- Witness for C6: three job ids yield exactly three match entries keyed by
the job ids, and a store with all phase-3 completions recorded makes
`finalize` emit the terminal aggregated event. -/
theorem finalize_aggregates_one_match_per_job_witness :
    (runMatchAll store3 [("j1", ExecOutcome.ok sampleData),
        ("j2", ExecOutcome.otherError "x"),
        ("j3", ExecOutcome.ok emptyData)]).skill_matches.map Prod.fst =
      ["j1", "j2", "j3"] ∧
    (finalize (Store.mk (some "s3") (some "r3") ["j1", "j2", "j3"]
        ["recommendations", "interview_prep"] [] [] [] false false none none none none)
      (Phase3Result.marketInsightsDone emptyData)).2 =
      [WEvent.stop (FinalResult.mk true (some "s3") (some "r3") [] none none none)] :=
  ⟨(finalize_aggregates_one_match_per_job.2 store3
      [("j1", ExecOutcome.ok sampleData), ("j2", ExecOutcome.otherError "x"),
       ("j3", ExecOutcome.ok emptyData)] rfl (by decide)).1,
   finalize_aggregates_one_match_per_job.1
     (Store.mk (some "s3") (some "r3") ["j1", "j2", "j3"]
       ["recommendations", "interview_prep"] [] [] [] false false none none none none)
     (Phase3Result.marketInsightsDone emptyData) (by decide)⟩

end Workflow
